import Mathlib

/-!
Shallow embedding of the drf_boilerplate task-tracking backend
(src/tasks/views.py and src/users/views.py) and proofs of the spec claims.

The database tables are modelled as ordered lists of records (insertion
order), caller identity as an explicit `Request` value, and each endpoint
operation as a pure function from the request and the stored state to a
result and the new state, following the two view classes line by line.
-/

namespace DrfBoilerplate

/-- Modelled from the spec: the Task model (src/tasks/models.py is not under
src/). Fields per spec section 3: system-assigned id, owner reference
(the Django field is named `user`, as used by `get_queryset` and
`perform_create` in src/tasks/views.py), title, optional description,
optional due_date (a date, encoded as a Nat), completed flag with default
false. -/
structure Task where
  id : Nat
  user : Nat
  title : String
  description : String
  due_date : Option Nat
  completed : Bool
deriving DecidableEq, Repr

/-- The untrusted field set submitted to create/update a task. It may carry
an explicit owner field (spec: supplying one must not change the forced
ownership) and may omit the completed flag (spec: default false). -/
structure TaskInput where
  owner : Option Nat
  title : String
  description : String
  due_date : Option Nat
  completed : Option Bool
deriving DecidableEq, Repr

/-- The authenticated request: `request.user` is the caller identity,
supplied by the framework's authentication layer (IsAuthenticated). -/
structure Request where
  user : Nat
deriving DecidableEq, Repr

/-- Framework default: rest_framework.permissions.BasePermission's
has_object_permission returns True for every request, view and object. -/
def BasePermission.has_object_permission (_request : Request) (_view : Unit)
    (_obj : Task) : Bool :=
  true

/-- src/tasks/views.py, IsOwnerPermission.has_object_permission: returns
super().has_object_permission(request, view, obj), i.e. the framework
default, unchanged. -/
def IsOwnerPermission.has_object_permission (request : Request) (view : Unit)
    (obj : Task) : Bool :=
  BasePermission.has_object_permission request view obj

/-- src/tasks/views.py, TaskViewSet.get_queryset:
Task.objects.filter(user=self.request.user). -/
def get_queryset (request : Request) (db : List Task) : List Task :=
  db.filter (fun t => t.user == request.user)

/-- The query parameters a list request may carry, per
filterset_fields = ['completed', 'due_date'] and
search_fields = ['title', 'description'] in src/tasks/views.py. -/
structure QueryParams where
  completed : Option Bool
  due_date : Option Nat
  search : Option String
deriving DecidableEq, Repr

/-- Occurrence of one character list inside another. -/
def charsContain : List Char → List Char → Bool
  | needle, [] => needle.isEmpty
  | needle, c :: rest => List.isPrefixOf needle (c :: rest) || charsContain needle rest

/-- Substring test used by the search backend (icontains-style match,
case handling elided). -/
def strContains (hay needle : String) : Bool :=
  charsContain needle.data hay.data

/-- DjangoFilterBackend with filterset_fields = ['completed', 'due_date']:
exact match on each parameter that is present. -/
def django_filter (p : QueryParams) (t : Task) : Bool :=
  (match p.completed with
   | none => true
   | some b => t.completed == b)
  && (match p.due_date with
      | none => true
      | some d => t.due_date == some d)

/-- SearchFilter with search_fields = ['title', 'description']: a task
matches when the search term occurs in its title or its description; no
search term means no restriction. -/
def search_filter (p : QueryParams) (t : Task) : Bool :=
  match p.search with
  | none => true
  | some s => strContains t.title s || strContains t.description s

/-- The list operation: the owner-scoped queryset of get_queryset, run
through the two filter backends in their declared order. -/
def list (request : Request) (p : QueryParams) (db : List Task) : List Task :=
  ((get_queryset request db).filter (django_filter p)).filter (search_filter p)

/-- Outcome of a single-object read, as the framework reports it:
the serialized task, 404 NotFound, or 403 Forbidden. -/
inductive RetrieveResult where
  | ok : Task → RetrieveResult
  | notFound : RetrieveResult
  | forbidden : RetrieveResult
deriving DecidableEq, Repr

/-- The framework's get_object for TaskViewSet: look the id up in the
owner-scoped queryset (404 when absent), then run the object-permission
check of permission_classes (403 when it denies). -/
def retrieve (request : Request) (id : Nat) (db : List Task) : RetrieveResult :=
  match (get_queryset request db).find? (fun t => t.id == id) with
  | none => RetrieveResult.notFound
  | some t =>
      if IsOwnerPermission.has_object_permission request () t then
        RetrieveResult.ok t
      else
        RetrieveResult.forbidden

/-- Largest task id present in the store (0 when empty). -/
def maxId (db : List Task) : Nat :=
  db.foldr (fun t m => max t.id m) 0

/-- System-assigned fresh id for a newly created task. -/
def freshId (db : List Task) : Nat :=
  maxId db + 1

/-- src/tasks/views.py, TaskViewSet.perform_create:
serializer.save(user=self.request.user). The keyword argument overrides any
owner field of the submitted data, so the stored owner is the caller.
Modelled from the spec where the serializer is involved: completed defaults
to false when the input omits it (src/tasks/serializers.py and the model
default are not under src/). -/
def perform_create (request : Request) (input : TaskInput) (db : List Task) :
    List Task × Task :=
  let t : Task :=
    { id := freshId db
      user := request.user
      title := input.title
      description := input.description
      due_date := input.due_date
      completed := input.completed.getD false }
  (db ++ [t], t)

/-- Outcome of an update request. -/
inductive UpdateResult where
  | ok : Task → UpdateResult
  | notFound : UpdateResult
  | forbidden : UpdateResult
deriving DecidableEq, Repr

/-- Modelled from the spec: how the Task serializer applies submitted fields
to an existing task (src/tasks/serializers.py is not under src/). Per spec
section 3 and 4.2 the owner field is immutable after creation, so any owner
field in the input is ignored; the writable fields are title, description,
due_date and completed, the last keeping its stored value when omitted. -/
def apply_update (t : Task) (input : TaskInput) : Task :=
  { t with
      title := input.title
      description := input.description
      due_date := input.due_date
      completed := input.completed.getD t.completed }

/-- The framework's update flow for TaskViewSet: get_object on the
owner-scoped queryset, then save the submitted fields onto the found task,
replacing it in the store. -/
def update (request : Request) (id : Nat) (input : TaskInput)
    (db : List Task) : UpdateResult × List Task :=
  match retrieve request id db with
  | RetrieveResult.ok t =>
      let t' := apply_update t input
      (UpdateResult.ok t',
        db.map (fun u => if u.id == id && u.user == request.user then t' else u))
  | RetrieveResult.notFound => (UpdateResult.notFound, db)
  | RetrieveResult.forbidden => (UpdateResult.forbidden, db)

/-- Outcome of a delete request. -/
inductive DeleteResult where
  | success : DeleteResult
  | notFound : DeleteResult
  | forbidden : DeleteResult
deriving DecidableEq, Repr

/-- The framework's destroy flow for TaskViewSet: get_object on the
owner-scoped queryset, then remove the found row. -/
def delete (request : Request) (id : Nat) (db : List Task) :
    DeleteResult × List Task :=
  match retrieve request id db with
  | RetrieveResult.ok _ =>
      (DeleteResult.success,
        db.filter (fun u => !(u.id == id && u.user == request.user)))
  | RetrieveResult.notFound => (DeleteResult.notFound, db)
  | RetrieveResult.forbidden => (DeleteResult.forbidden, db)

/-- The class attribute dictionary of TaskViewSet exactly as written in
src/tasks/views.py (attribute name, attribute value as source text). Note
the first attribute's name is spelled `serialzer_class` in the source. -/
def taskViewSetAttrs : List (String × String) :=
  [("serialzer_class", "TaskSerializer"),
   ("permission_classes", "[IsAuthenticated, IsOwnerPermission]"),
   ("filter_backends", "[DjangoFilterBackend, SearchFilter]"),
   ("filterset_fields", "['completed', 'due_date']"),
   ("search_fields", "['title', 'description']")]

/-- The framework's GenericAPIView.get_serializer_class: reads the
`serializer_class` attribute of the view class; when it is unset (None) the
framework's assertion fails and the request errors out instead of reaching
a serializer. -/
def get_serializer_class (attrs : List (String × String)) : Option String :=
  (attrs.find? (fun kv => kv.fst == "serializer_class")).map Prod.snd

/-- The untrusted registration body: at least username, email, password
(spec section 4.1). -/
structure RegisterInput where
  username : String
  email : String
  password : String
deriving DecidableEq, Repr

/-- A stored user row: system-assigned id, username, email, and the
password in hashed form (framework responsibility). -/
structure UserRec where
  id : Nat
  username : String
  email : String
  passwordHash : String
deriving DecidableEq, Repr

/-- A value appearing in a JSON response body. -/
inductive JVal where
  | nat : Nat → JVal
  | str : String → JVal
deriving DecidableEq, Repr

/-- An HTTP response: status code and the body as an ordered field map. -/
structure HttpResponse where
  status : Nat
  body : List (String × JVal)
deriving DecidableEq, Repr

/-- One entry of the field-to-reason error mapping produced when
serializer validation rejects the input. -/
structure FieldError where
  field : String
  reason : String
deriving DecidableEq, Repr

/-- System-assigned fresh id for a newly created user. -/
def freshUserId (db : List UserRec) : Nat :=
  db.foldr (fun u m => max u.id m) 0 + 1

/-- serializer.save() for the user serializer: persists one user row with a
fresh id and the password hashed (hashing itself is framework-supplied and
kept abstract as the `hash` argument). -/
def saveUser (input : RegisterInput) (hash : String → String)
    (db : List UserRec) : UserRec :=
  { id := freshUserId db
    username := input.username
    email := input.email
    passwordHash := hash input.password }

/-- src/users/views.py, RegisterView.post: run the serializer's validation
(is_valid with raise_exception=True aborts the handler before any save and
the framework turns the raised error into the 400 field-error response,
here the Sum.inr branch); on success save the user and return 201 with
exactly the id, username and email fields. Validation rules live in the
external serializer schema and are kept abstract as the `validate`
argument. -/
def RegisterView.post (validate : RegisterInput → Except (List FieldError) RegisterInput)
    (hash : String → String) (input : RegisterInput) (db : List UserRec) :
    List UserRec × (HttpResponse ⊕ List FieldError) :=
  match validate input with
  | Except.error errs => (db, Sum.inr errs)
  | Except.ok v =>
      let u := saveUser v hash db
      (db ++ [u],
        Sum.inl
          { status := 201
            body := [("id", JVal.nat u.id),
                     ("username", JVal.str u.username),
                     ("email", JVal.str u.email)] })

/-- Concrete sample task owned by user 1, used to instantiate the proved
statements on closed inputs. -/
def taskW : Task :=
  { id := 10, user := 1, title := "write report", description := "draft",
    due_date := some 20261001, completed := false }

/-- Concrete sample task owned by user 2. -/
def taskW2 : Task :=
  { id := 11, user := 2, title := "buy milk", description := "",
    due_date := none, completed := true }

/-- Concrete sample store holding one task of each of users 1 and 2. -/
def dbW : List Task :=
  [taskW, taskW2]

/-- Concrete sample query parameters: no filter, no search. -/
def pW : QueryParams :=
  { completed := none, due_date := none, search := none }

/-- Concrete sample submitted task fields carrying a spoofed owner. -/
def inputW : TaskInput :=
  { owner := some 7, title := "new title", description := "new desc",
    due_date := none, completed := none }

/-- Concrete sample registration body. -/
def regInputW : RegisterInput :=
  { username := "alice", email := "alice@example.com", password := "hunter2" }

/-- Concrete sample validator: rejects a blank username with a field error,
accepts anything else unchanged. -/
def validateW : RegisterInput → Except (List FieldError) RegisterInput :=
  fun i =>
    if i.username = "" then
      Except.error [{ field := "username", reason := "This field may not be blank." }]
    else
      Except.ok i

/-- Concrete sample hash function standing in for the framework hasher. -/
def hashW : String → String :=
  fun s => String.append "pbkdf2$" s

/-- Concrete sample registration body that validateW rejects. -/
def regInputBad : RegisterInput :=
  { username := "", email := "", password := "" }

/-- Concrete sample task of user 1 that is completed and carries a
due date, for exercising the list filters. -/
def task3 : Task :=
  { id := 12, user := 1, title := "buy milk now", description := "",
    due_date := some 5, completed := true }

/-- Concrete sample store with two tasks of user 1 and one of user 2. -/
def dbW3 : List Task :=
  [taskW, taskW2, task3]

/-- Concrete sample query parameters filtering on completed and due_date. -/
def pFull : QueryParams :=
  { completed := some true, due_date := some 5, search := none }

/-! ## Helper lemmas about the queryset and single-object lookup -/

theorem mem_get_queryset {request : Request} {db : List Task} {t : Task}
    (h : t ∈ get_queryset request db) : t ∈ db ∧ t.user = request.user := by
  simpa [get_queryset, List.mem_filter] using h

theorem self_mem_get_queryset {request : Request} {db : List Task} {t : Task}
    (ht : t ∈ db) (hu : t.user = request.user) : t ∈ get_queryset request db := by
  simp [get_queryset, List.mem_filter, ht, hu]

theorem retrieve_notFound_of_not_owned {request : Request} {id : Nat} {db : List Task}
    (h : ∀ u ∈ db, u.user = request.user → u.id ≠ id) :
    retrieve request id db = RetrieveResult.notFound := by
  unfold retrieve
  have hnone : (get_queryset request db).find? (fun t => t.id == id) = none := by
    apply List.find?_eq_none.mpr
    intro x hx
    obtain ⟨hxdb, hxu⟩ := mem_get_queryset hx
    simp only [beq_iff_eq]
    exact h x hxdb hxu
  rw [hnone]

theorem retrieve_ok_inv {request : Request} {id : Nat} {db : List Task} {t : Task}
    (h : retrieve request id db = RetrieveResult.ok t) :
    t ∈ db ∧ t.user = request.user ∧ t.id = id := by
  unfold retrieve at h
  cases hf : (get_queryset request db).find? (fun t => t.id == id) with
  | none =>
      rw [hf] at h
      cases h
  | some t0 =>
      rw [hf] at h
      simp only [IsOwnerPermission.has_object_permission,
        BasePermission.has_object_permission, if_true, RetrieveResult.ok.injEq] at h
      subst h
      have h1 := List.mem_of_find?_eq_some hf
      have h2 := List.find?_some hf
      obtain ⟨hdb, hu⟩ := mem_get_queryset h1
      exact ⟨hdb, hu, by simpa [beq_iff_eq] using h2⟩

theorem le_maxId {db : List Task} {t : Task} (h : t ∈ db) : t.id ≤ maxId db := by
  induction db with
  | nil => cases h
  | cons hd tl ih =>
      rcases List.mem_cons.mp h with h1 | h2
      · subst h1
        exact le_max_left _ _
      · exact le_trans (ih h2) (le_max_right _ _)

theorem id_lt_freshId {db : List Task} {t : Task} (h : t ∈ db) : t.id < freshId db :=
  Nat.lt_succ_of_le (le_maxId h)

theorem mem_list_inv {request : Request} {p : QueryParams} {db : List Task} {t : Task}
    (h : t ∈ list request p db) :
    t ∈ db ∧ t.user = request.user ∧ django_filter p t = true ∧
      search_filter p t = true := by
  unfold list at h
  have h1 := List.mem_filter.mp h
  have h2 := List.mem_filter.mp h1.1
  obtain ⟨hdb, hu⟩ := mem_get_queryset h2.1
  exact ⟨hdb, hu, h2.2, h1.2⟩

/-! ## The claims -/

/-- Claim C5: the ownership permission hook is functionally a no-op: on every
request, view and task object it returns exactly what the framework default
check returns, namely unconditional acceptance, so it adds no restriction
beyond omitting the hook entirely. -/
theorem C5_permission_hook_noop (request : Request) (view : Unit) (obj : Task) :
    IsOwnerPermission.has_object_permission request view obj =
      BasePermission.has_object_permission request view obj ∧
    IsOwnerPermission.has_object_permission request view obj = true :=
  ⟨rfl, rfl⟩

/-- Claim C4 is refuted by the source as written: TaskViewSet spells the
configuration attribute `serialzer_class`, so the framework lookup of
`serializer_class` finds nothing and no operation is handed the Task
serializer; the misspelled attribute does carry TaskSerializer. -/
theorem C4_serializer_attribute_misspelled :
    get_serializer_class taskViewSetAttrs = none ∧
    (taskViewSetAttrs.find? (fun kv => kv.fst == "serialzer_class")).map Prod.snd =
      some "TaskSerializer" := by
  constructor <;> decide

/-- Claim C2: create forces ownership to the caller: the created task's owner
equals the caller for every submitted field set, in particular when the input
carries an explicit owner field different from the caller. -/
theorem C2_create_forces_owner (caller : Nat) (input : TaskInput) (db : List Task) :
    ((perform_create { user := caller } input db).2).user = caller ∧
    (∀ o : Nat, o ≠ caller →
      ((perform_create { user := caller } { input with owner := some o } db).2).user
        = caller) :=
  ⟨rfl, fun _ _ => rfl⟩

/-- Witness for C2 at concrete inputs: user 1 creating with a spoofed owner
field 7 still owns the stored task. -/
theorem C2_create_forces_owner_witness :
    ((perform_create { user := 1 } inputW dbW).2).user = 1 ∧
    (7 : Nat) ≠ 1 ∧
    ((perform_create { user := 1 } { inputW with owner := some 7 } dbW).2).user = 1 :=
  ⟨(C2_create_forces_owner 1 inputW dbW).1, by decide,
    (C2_create_forces_owner 1 inputW dbW).2 7 (by decide)⟩

/-- Claim C3: whenever the validator accepts a registration input, the
response is 201 and its body holds exactly the fields id, username and email;
no password field ever appears in it. -/
theorem C3_register_response_fields
    (validate : RegisterInput → Except (List FieldError) RegisterInput)
    (hash : String → String) (input v : RegisterInput) (db : List UserRec)
    (hOk : validate input = Except.ok v) :
    ∃ resp : HttpResponse,
      (RegisterView.post validate hash input db).2 = Sum.inl resp ∧
      resp.status = 201 ∧
      resp.body.map Prod.fst = ["id", "username", "email"] ∧
      ∀ kv ∈ resp.body, kv.fst ≠ "password" := by
  unfold RegisterView.post
  rw [hOk]
  refine ⟨_, rfl, rfl, rfl, ?_⟩
  intro kv hkv
  simp only [List.mem_cons, List.not_mem_nil, or_false] at hkv
  rcases hkv with h | h | h <;> subst h <;> simp

/-- Witness for C3 at concrete inputs. -/
theorem C3_register_response_fields_witness :
    validateW regInputW = Except.ok regInputW ∧
    (∃ resp : HttpResponse,
      (RegisterView.post validateW hashW regInputW []).2 = Sum.inl resp ∧
      resp.status = 201 ∧
      resp.body.map Prod.fst = ["id", "username", "email"] ∧
      ∀ kv ∈ resp.body, kv.fst ≠ "password") :=
  ⟨rfl, C3_register_response_fields validateW hashW regInputW regInputW [] rfl⟩

/-- Claim C7: registration is atomic: when validation rejects, the user table
is unchanged and the field-error mapping is returned; the save step is
reached only when validation accepts, and then exactly one user row is
appended. -/
theorem C7_register_atomic
    (validate : RegisterInput → Except (List FieldError) RegisterInput)
    (hash : String → String) (input : RegisterInput) (db : List UserRec) :
    (∀ errs, validate input = Except.error errs →
      (RegisterView.post validate hash input db).1 = db ∧
      (RegisterView.post validate hash input db).2 = Sum.inr errs) ∧
    (∀ v, validate input = Except.ok v →
      (RegisterView.post validate hash input db).1 = db ++ [saveUser v hash db] ∧
      (RegisterView.post validate hash input db).1.length = db.length + 1) := by
  constructor
  · intro errs h
    unfold RegisterView.post
    rw [h]
    exact ⟨rfl, rfl⟩
  · intro v h
    unfold RegisterView.post
    rw [h]
    exact ⟨rfl, by simp⟩

/-- Witness for C7 at concrete inputs: a rejected input leaves the empty
table empty, an accepted one appends exactly one row. -/
theorem C7_register_atomic_witness :
    (RegisterView.post validateW hashW regInputBad []).1 = [] ∧
    (RegisterView.post validateW hashW regInputW []).1 = [] ++ [saveUser regInputW hashW []] ∧
    (RegisterView.post validateW hashW regInputW []).1.length =
      List.length ([] : List UserRec) + 1 :=
  ⟨((C7_register_atomic validateW hashW regInputBad []).1 _ rfl).1,
   ((C7_register_atomic validateW hashW regInputW []).2 regInputW rfl).1,
   ((C7_register_atomic validateW hashW regInputW []).2 regInputW rfl).2⟩

/-- Claim C1: ownership isolation: a task owned by A is never returned by
list under any parameters when invoked by B ≠ A; B's retrieve on its id is
NotFound, the very same answer as for an id absent from the store and never
the distinct forbidden answer; and B's update and delete on it answer
NotFound while leaving the store untouched. -/
theorem C1_ownership_isolation
    (A B : Nat) (t : Task) (db : List Task) (p : QueryParams) (f : TaskInput)
    (idAbsent : Nat)
    (hAB : A ≠ B) (hOwner : t.user = A)
    (hId : ∀ u ∈ db, u.id = t.id → u.user = A)
    (hAbsent : ∀ u ∈ db, u.id ≠ idAbsent) :
    t ∉ list { user := B } p db ∧
    retrieve { user := B } t.id db = RetrieveResult.notFound ∧
    retrieve { user := B } t.id db = retrieve { user := B } idAbsent db ∧
    update { user := B } t.id f db = (UpdateResult.notFound, db) ∧
    delete { user := B } t.id db = (DeleteResult.notFound, db) := by
  have hret : retrieve { user := B } t.id db = RetrieveResult.notFound := by
    apply retrieve_notFound_of_not_owned
    intro u hu huB hidEq
    exact hAB ((hId u hu hidEq).symm.trans huB)
  have habs : retrieve { user := B } idAbsent db = RetrieveResult.notFound := by
    apply retrieve_notFound_of_not_owned
    intro u hu _ hidEq
    exact hAbsent u hu hidEq
  refine ⟨?_, hret, hret.trans habs.symm, ?_, ?_⟩
  · intro hmem
    have h3 := (mem_list_inv hmem).2.1
    exact hAB (hOwner.symm.trans h3)
  · unfold update
    rw [hret]
  · unfold delete
    rw [hret]

/-- Witness for C1 at concrete inputs: user 2 cannot see or touch user 1's
task, and gets the same NotFound as for the absent id 99. -/
theorem C1_ownership_isolation_witness :
    taskW ∉ list { user := 2 } pW dbW ∧
    retrieve { user := 2 } taskW.id dbW = RetrieveResult.notFound ∧
    retrieve { user := 2 } taskW.id dbW = retrieve { user := 2 } 99 dbW ∧
    update { user := 2 } taskW.id inputW dbW = (UpdateResult.notFound, dbW) ∧
    delete { user := 2 } taskW.id dbW = (DeleteResult.notFound, dbW) :=
  C1_ownership_isolation 1 2 taskW dbW pW inputW 99
    (by decide) (by decide) (by decide) (by decide)

/-- Claim C6: the owner field is immutable under update: every update
invocation leaves the stored owner of every row unchanged, a successful
update returns a task still owned by the caller, and applying any submitted
field set (an owner field included) never changes a task's owner. -/
theorem C6_update_owner_immutable (caller id : Nat) (input : TaskInput)
    (db : List Task) :
    ((update { user := caller } id input db).2).map Task.user = db.map Task.user ∧
    (∀ t', (update { user := caller } id input db).1 = UpdateResult.ok t' →
      t'.user = caller) ∧
    (∀ t : Task, (apply_update t input).user = t.user) := by
  cases hres : retrieve { user := caller } id db with
  | notFound =>
      refine ⟨?_, ?_, fun t => rfl⟩
      · simp [update, hres]
      · intro t' h
        simp [update, hres] at h
  | forbidden =>
      refine ⟨?_, ?_, fun t => rfl⟩
      · simp [update, hres]
      · intro t' h
        simp [update, hres] at h
  | ok t =>
      obtain ⟨htdb, htu, htid⟩ := retrieve_ok_inv hres
      refine ⟨?_, ?_, fun t0 => rfl⟩
      · have hsnd : ((update { user := caller } id input db).2) =
            db.map (fun u =>
              if u.id == id && u.user == caller then apply_update t input else u) := by
          simp [update, hres]
        rw [hsnd, List.map_map]
        apply List.map_congr_left
        intro a ha
        by_cases hc : (a.id == id && a.user == caller) = true
        · have ha2 : a.user = caller := by
            simpa [beq_iff_eq] using (Bool.and_eq_true _ _ |>.mp hc).2
          simp only [Function.comp_apply, hc, if_true]
          show (apply_update t input).user = a.user
          simp [apply_update, htu, ha2]
        · have hn : ¬(a.id = id ∧ a.user = caller) := by
            simpa [Bool.and_eq_true, beq_iff_eq] using hc
          simp [hn]
      · intro t' h
        simp only [update, hres, UpdateResult.ok.injEq] at h
        rw [← h]
        simpa [apply_update] using htu

/-- Witness for C6 at concrete inputs: user 1 updating its own task 10 with
a field set carrying the spoofed owner 7 leaves every stored owner as it
was. -/
theorem C6_update_owner_immutable_witness :
    ((update { user := 1 } 10 inputW dbW).2).map Task.user = dbW.map Task.user ∧
    (apply_update taskW inputW).user = 1 ∧
    (apply_update taskW inputW).user = taskW.user :=
  ⟨(C6_update_owner_immutable 1 10 inputW dbW).1,
   (C6_update_owner_immutable 1 10 inputW dbW).2.1 (apply_update taskW inputW) (by decide),
   (C6_update_owner_immutable 1 10 inputW dbW).2.2 taskW⟩

/-- Claim C8: list filtering semantics: every returned task belongs to the
caller and passes both recognized filter backends; with completed=true only
the caller's completed tasks come back; an exact due_date filter restricts
likewise; and adding a search term restricts the result further, to tasks
whose title or description contains it. -/
theorem C8_list_filter_and_search (caller : Nat) (p : QueryParams) (db : List Task) :
    (∀ t ∈ list { user := caller } p db,
      t.user = caller ∧ django_filter p t = true ∧ search_filter p t = true) ∧
    (p.completed = some true →
      ∀ t ∈ list { user := caller } p db, t.completed = true) ∧
    (∀ d, p.due_date = some d →
      ∀ t ∈ list { user := caller } p db, t.due_date = some d) ∧
    (∀ s t, t ∈ list { user := caller } { p with search := some s } db →
      t ∈ list { user := caller } { p with search := none } db ∧
      (strContains t.title s || strContains t.description s) = true) := by
  refine ⟨?_, ?_, ?_, ?_⟩
  · intro t ht
    obtain ⟨_, hu, hdf, hsf⟩ := mem_list_inv ht
    exact ⟨hu, hdf, hsf⟩
  · intro hc t ht
    have hdf := (mem_list_inv ht).2.2.1
    simp only [django_filter, hc, Bool.and_eq_true, beq_iff_eq] at hdf
    exact hdf.1
  · intro d hd t ht
    have hdf := (mem_list_inv ht).2.2.1
    simp only [django_filter, hd, Bool.and_eq_true, beq_iff_eq] at hdf
    exact hdf.2
  · intro s t ht
    obtain ⟨hdb, hu, hdf, hsf⟩ := mem_list_inv ht
    constructor
    · unfold list
      exact List.mem_filter.mpr
        ⟨List.mem_filter.mpr ⟨self_mem_get_queryset hdb hu, hdf⟩, rfl⟩
    · simpa [search_filter] using hsf

/-- Witness for C8 at concrete inputs: with completed=true, due_date=5 and
the search term milk, user 1's matching task is returned and satisfies every
stated restriction. -/
theorem C8_list_filter_and_search_witness :
    (task3.user = 1 ∧ django_filter pFull task3 = true ∧
      search_filter pFull task3 = true) ∧
    task3.completed = true ∧
    task3.due_date = some 5 ∧
    (task3 ∈ list { user := 1 } { pFull with search := none } dbW3 ∧
      (strContains task3.title "milk" || strContains task3.description "milk") = true) :=
  ⟨(C8_list_filter_and_search 1 pFull dbW3).1 task3 (by decide),
   (C8_list_filter_and_search 1 pFull dbW3).2.1 (by decide) task3 (by decide),
   (C8_list_filter_and_search 1 pFull dbW3).2.2.1 5 (by decide) task3 (by decide),
   (C8_list_filter_and_search 1 pFull dbW3).2.2.2 "milk" task3 (by decide)⟩

theorem retrieve_append_self (request : Request) (db : List Task) (t : Task)
    (hu : t.user = request.user) (hfresh : ∀ u ∈ db, u.id ≠ t.id) :
    retrieve request t.id (db ++ [t]) = RetrieveResult.ok t := by
  unfold retrieve
  rw [get_queryset, List.filter_append]
  have hsingle : List.filter (fun u => u.user == request.user) [t] = [t] := by
    simp [hu]
  rw [hsingle, List.find?_append]
  have h1 : (List.filter (fun u => u.user == request.user) db).find?
      (fun u => u.id == t.id) = none := by
    apply List.find?_eq_none.mpr
    intro x hx
    have hxdb := (List.mem_filter.mp hx).1
    simp only [beq_iff_eq]
    exact hfresh x hxdb
  rw [h1]
  simp [List.find?, IsOwnerPermission.has_object_permission,
    BasePermission.has_object_permission]

/-- Claim C9: create/retrieve round trip: retrieving, as the same caller, the
id of a task just created returns exactly that task, whose fields match the
submitted field set modulo the server-assigned id and the default
completed=false when the input omits the flag. -/
theorem C9_create_retrieve_roundtrip (caller : Nat) (input : TaskInput)
    (db : List Task) :
    retrieve { user := caller } (perform_create { user := caller } input db).2.id
        (perform_create { user := caller } input db).1 =
      RetrieveResult.ok (perform_create { user := caller } input db).2 ∧
    (perform_create { user := caller } input db).2.title = input.title ∧
    (perform_create { user := caller } input db).2.description = input.description ∧
    (perform_create { user := caller } input db).2.due_date = input.due_date ∧
    (perform_create { user := caller } input db).2.completed =
      input.completed.getD false ∧
    (input.completed = none →
      (perform_create { user := caller } input db).2.completed = false) := by
  refine ⟨?_, rfl, rfl, rfl, rfl, fun h => by simp [perform_create, h]⟩
  exact retrieve_append_self { user := caller } db
    (perform_create { user := caller } input db).2 rfl
    (fun u hu => Nat.ne_of_lt (id_lt_freshId hu))

/-- Witness for C9 at concrete inputs: user 1 creates from inputW (which
omits the completed flag) over dbW and reads the task straight back,
completed defaulting to false. -/
theorem C9_create_retrieve_roundtrip_witness :
    retrieve { user := 1 } (perform_create { user := 1 } inputW dbW).2.id
        (perform_create { user := 1 } inputW dbW).1 =
      RetrieveResult.ok (perform_create { user := 1 } inputW dbW).2 ∧
    (perform_create { user := 1 } inputW dbW).2.completed = false :=
  ⟨(C9_create_retrieve_roundtrip 1 inputW dbW).1,
   (C9_create_retrieve_roundtrip 1 inputW dbW).2.2.2.2.2 rfl⟩

/-- Claim C10: list is deterministic and its order stable: two invocations
against equal stored state with equal parameters return the same sequence,
and the returned sequence follows the stored order (it is a subsequence of
the store). -/
theorem C10_list_deterministic (caller : Nat) (p q : QueryParams)
    (db1 db2 : List Task) (hdb : db1 = db2) (hp : p = q) :
    list { user := caller } p db1 = list { user := caller } q db2 ∧
    (list { user := caller } p db1).Sublist db1 := by
  subst hdb
  subst hp
  refine ⟨rfl, ?_⟩
  exact ((List.filter_sublist _).trans (List.filter_sublist _)).trans
    (List.filter_sublist _)

/-- Witness for C10 at concrete inputs. -/
theorem C10_list_deterministic_witness :
    list { user := 1 } pFull dbW3 = list { user := 1 } pFull dbW3 ∧
    (list { user := 1 } pFull dbW3).Sublist dbW3 :=
  C10_list_deterministic 1 pFull pFull dbW3 dbW3 rfl rfl

end DrfBoilerplate
